import Mathlib

/-!
Verification of the FileOrganizer utility (src/main.rs).

The development shallowly embeds the program: the filesystem is a structure
holding the direct children of the target directory, the set of existing
destination subdirectories, and the files already placed in destination
subdirectories.  Fallible OS calls (reading a file, reading metadata,
renaming, creating a directory) are modelled by per-entry / per-path error
oracles; an operation succeeds exactly when its oracle is `none`.
Machine-level byte contents are lists of naturals.  The SHA-256 digest of a
file is modelled as the file's byte content itself: the spec stipulates that
digest equality coincides (with overwhelming probability) with content
equality, and no claim depends on hash collisions, so the digest is taken
collision-free.
-/

/-- A content digest; modelled as the file's byte content (see header note). -/
abbrev Digest := List Nat

/-- Decidable equality on `Except`, for evaluating the model on concrete
inputs. -/
instance exceptDecEq {ε α : Type} [DecidableEq ε] [DecidableEq α] :
    DecidableEq (Except ε α) := fun x y =>
  match x, y with
  | Except.ok a, Except.ok b =>
      if h : a = b then Decidable.isTrue (by rw [h])
      else Decidable.isFalse (by intro hc; cases hc; exact h rfl)
  | Except.error a, Except.error b =>
      if h : a = b then Decidable.isTrue (by rw [h])
      else Decidable.isFalse (by intro hc; cases hc; exact h rfl)
  | Except.ok _, Except.error _ => Decidable.isFalse (by intro hc; cases hc)
  | Except.error _, Except.ok _ => Decidable.isFalse (by intro hc; cases hc)

/-- What a symbolic link resolves to.  `Path::is_file` in the source
traverses links, so the resolution target matters. -/
inductive SymTarget
  | toFile
  | toDir
  | broken
deriving DecidableEq

/-- The kind of a direct child of the target directory. -/
inductive EntryKind
  | file
  | dir
  | symlink (t : SymTarget)
  | other
deriving DecidableEq

/-- A direct child of the target directory at scan time.
`mtime` is the `%Y-%m-%d` rendering of the local last-modified time.
`hashErr` / `metaErr` / `renameErr` are the I/O oracles for opening-and-
reading the file (`hash_file`), `fs::metadata` + `modified()`, and
`fs::rename` respectively. -/
structure Entry where
  name : String
  kind : EntryKind
  content : List Nat
  mtime : String
  hashErr : Option Nat
  metaErr : Option Nat
  renameErr : Option Nat
deriving DecidableEq

/-- The filesystem state, rooted at the target directory.
`rootFiles`: direct children of the target directory (in iteration order);
`dirs`: existing destination subdirectories, as component lists relative to
the target (e.g. `["images", "2025-10-25"]`);
`destFiles`: files sitting in destination subdirectories, keyed by their
directory;
`readDirErr`: oracle for `fs::read_dir` on the target;
`mkdirFail`: per-path oracle for `fs::create_dir_all` failures. -/
structure FS where
  rootFiles : List Entry
  dirs : List (List String)
  destFiles : List (List String × Entry)
  readDirErr : Option Nat
  mkdirFail : List (List String × Nat)
deriving DecidableEq

/-- `entry.path().is_file()` (main.rs line 62): true for a regular file, and
for a symbolic link that resolves to a regular file (`Path::is_file`
traverses links). -/
def isFile (e : Entry) : Bool :=
  match e.kind with
  | EntryKind.file => true
  | EntryKind.symlink SymTarget.toFile => true
  | _ => false

/-- `hash_file` (main.rs lines 126-141): stream the bytes through SHA-256;
fails if the file cannot be opened or read.  The digest is modelled as the
content itself (collision-free abstraction, see header). -/
def hash_file (e : Entry) : Except Nat Digest :=
  match e.hashErr with
  | some c => Except.error c
  | none => Except.ok e.content

/-- `Path::extension()` of the file name (main.rs lines 74-77): the portion
of the name after the last dot, provided the part before that dot is
nonempty; `none` when there is no dot or the only dot is leading. -/
def rustExtension (name : String) : Option String :=
  let rev := name.toList.reverse
  if rev.contains '.' then
    let after := rev.takeWhile (fun ch => ch ≠ '.')
    if name.toList.length - after.length - 1 = 0 then none
    else some (String.mk after.reverse)
  else none

/-- `char::to_lowercase`, modelled for ASCII (which covers every extension
the classification table distinguishes). -/
def lowerChar (c : Char) : Char :=
  if 'A' ≤ c ∧ c ≤ 'Z' then Char.ofNat (c.toNat + 32) else c

/-- `str::to_lowercase`, character by character. -/
def lowerStr (s : String) : String :=
  String.mk (s.toList.map lowerChar)

/-- Lines 74-78: `path.extension().and_then(to_str).unwrap_or("").to_lowercase()`. -/
def lowerExt (e : Entry) : String :=
  lowerStr (Option.getD (rustExtension e.name) (""))

/-- The extension-to-folder table (main.rs lines 81-89), an equality chain
exactly mirroring the Rust `match`. -/
def classify (ext : String) : String :=
  if ext = "jpg" ∨ ext = "jpeg" ∨ ext = "png" ∨ ext = "bmp" ∨ ext = "tiff" then "images"
  else if ext = "gif" then "gifs"
  else if ext = "mp4" ∨ ext = "mov" ∨ ext = "avi" ∨ ext = "mkv" then "videos"
  else if ext = "mp3" ∨ ext = "wav" ∨ ext = "flac" then "audio"
  else if ext = "pdf" ∨ ext = "docx" ∨ ext = "txt" then "documents"
  else if ext = "zip" ∨ ext = "rar" ∨ ext = "7z" then "archives"
  else "others"

/-- Lines 91-95: the dated destination subfolder
`format!("{}/{}", target_folder, date_str)` for a non-duplicate file. -/
def classifiedSub (e : Entry) : List String :=
  [classify (lowerExt e), e.mtime]

/-- All nonempty component-prefixes of a subfolder path: the directories
`fs::create_dir_all` must ensure exist. -/
def pathPrefixes (sub : List String) : List (List String) :=
  (List.range sub.length).map (fun i => sub.take (i + 1))

/-- Look up the `create_dir_all` failure oracle for one directory path. -/
def mkdirFailCode (fs : FS) (p : List String) : Option Nat :=
  Option.map Prod.snd (fs.mkdirFail.find? (fun q => decide (q.1 = p)))

/-- `fs::create_dir_all` (main.rs line 110): create every missing prefix of
`sub`; fail if the OS refuses any of them. -/
def create_dir_all (fs : FS) (sub : List String) : Except Nat FS :=
  match ((pathPrefixes sub).filter (fun p => decide (p ∉ fs.dirs))).findSome? (mkdirFailCode fs) with
  | some c => Except.error c
  | none =>
      Except.ok { fs with
        dirs := fs.dirs ++ (pathPrefixes sub).filter (fun p => decide (p ∉ fs.dirs)) }

/-- Lines 108-111: `if !path_for_new_folder.exists() { create_dir_all(..)? }`. -/
def ensureDir (fs : FS) (sub : List String) : Except Nat FS :=
  if sub ∈ fs.dirs then Except.ok fs else create_dir_all fs sub

/-- The directory set produced by a successful `ensureDir`. -/
def moverDirs (fs : FS) (sub : List String) : List (List String) :=
  if sub ∈ fs.dirs then fs.dirs
  else fs.dirs ++ (pathPrefixes sub).filter (fun p => decide (p ∉ fs.dirs))

/-- `move_to_folder` (main.rs lines 106-122): ensure the destination
directory exists, then — only if nothing already exists at the destination
path — rename the source file into it. -/
def move_to_folder (fs : FS) (e : Entry) (sub : List String) : Except Nat FS :=
  match ensureDir fs sub with
  | Except.error c => Except.error c
  | Except.ok fs1 =>
      if (∃ d ∈ fs1.destFiles, d.1 = sub ∧ d.2.name = e.name) ∨ (sub ++ [e.name]) ∈ fs1.dirs then
        Except.ok fs1
      else
        match e.renameErr with
        | some c => Except.error c
        | none =>
            Except.ok { fs1 with
              rootFiles := fs1.rootFiles.eraseP (fun x => decide (x.name = e.name)),
              destFiles := (sub, e) :: fs1.destFiles }

/-- The body of the `for` loop of `organize_files` (main.rs lines 62-99)
for one directory entry, threading the `seen_hashes` set. -/
def processEntry (seen : List Digest) (fs : FS) (e : Entry) : Except Nat (List Digest × FS) :=
  if isFile e = true then
    match hash_file e with
    | Except.error c => Except.error c
    | Except.ok h =>
        if h ∈ seen then
          match move_to_folder fs e (["duplicates"]) with
          | Except.error c => Except.error c
          | Except.ok fs1 => Except.ok (seen, fs1)
        else
          match e.metaErr with
          | some c => Except.error c
          | none =>
              match move_to_folder fs e (classifiedSub e) with
              | Except.error c => Except.error c
              | Except.ok fs1 => Except.ok (h :: seen, fs1)
  else Except.ok (seen, fs)

/-- The `for` loop of `organize_files` over the `read_dir` snapshot. -/
def organizeLoop : List Entry → List Digest → FS → Except Nat (List Digest × FS)
  | [], seen, fs => Except.ok (seen, fs)
  | e :: rest, seen, fs =>
      match processEntry seen fs e with
      | Except.error c => Except.error c
      | Except.ok (s2, fs2) => organizeLoop rest s2 fs2

/-- `organize_files` (main.rs lines 54-102): read the directory, then run
the loop with a fresh `seen_hashes` set. -/
def organize_files (fs : FS) : Except Nat FS :=
  match fs.readDirErr with
  | some c => Except.error c
  | none =>
      match organizeLoop fs.rootFiles [] fs with
      | Except.error c => Except.error c
      | Except.ok (_, fs2) => Except.ok fs2

/-!  The watcher (main.rs lines 143-178).  The `notify` crate's event
taxonomy is embedded as inductives mirroring `EventKind` / `ModifyKind`
and their sub-kinds; the watcher initialization, the attach call, and the
event channel are modelled by an environment record. -/

/-- `notify::event::DataChange`. -/
inductive DataChange
  | any
  | size
  | content
  | other
deriving DecidableEq

/-- `notify::event::MetadataKind`. -/
inductive MetadataKind
  | any
  | accessTime
  | writeTime
  | permissions
  | ownership
  | extended
  | other
deriving DecidableEq

/-- `notify::event::RenameMode`. -/
inductive RenameMode
  | any
  | toTarget
  | fromSource
  | both
  | other
deriving DecidableEq

/-- `notify::event::ModifyKind`. -/
inductive ModifyKind
  | any
  | data (d : DataChange)
  | metadata (m : MetadataKind)
  | name (r : RenameMode)
  | other
deriving DecidableEq

/-- `notify::event::CreateKind`. -/
inductive CreateKind
  | any
  | file
  | folder
  | other
deriving DecidableEq

/-- `notify::event::AccessKind` (collapsed; its sub-detail is irrelevant
to the source, which never inspects it). -/
inductive AccessKind
  | any
  | other
deriving DecidableEq

/-- `notify::event::RemoveKind`. -/
inductive RemoveKind
  | any
  | file
  | folder
  | other
deriving DecidableEq

/-- `notify::EventKind`. -/
inductive EventKind
  | any
  | access (a : AccessKind)
  | create (c : CreateKind)
  | modify (m : ModifyKind)
  | remove (r : RemoveKind)
  | other
deriving DecidableEq

/-- Lines 163-166: `matches!(kind, EventKind::Create(_) | EventKind::Modify(ModifyKind::Data(_)))`. -/
def qualifies (k : EventKind) : Bool :=
  match k with
  | EventKind.create _ => true
  | EventKind.modify (ModifyKind.data _) => true
  | _ => false

/-- Console messages emitted inside the watch loop. -/
inductive WatchLog
  | detected
  | reorgError (e : Nat)
  | watchError (e : Nat)
deriving DecidableEq

/-- One iteration of the watch loop (main.rs lines 159-175): an `Ok` event
triggers a full pass when it qualifies (an error of that pass is logged and
swallowed); a delivery error is logged; everything else is ignored. -/
def watchStep (fs : FS) (log : List WatchLog) (res : Except Nat EventKind) : FS × List WatchLog :=
  match res with
  | Except.ok k =>
      if qualifies k = true then
        match organize_files fs with
        | Except.ok fs2 => (fs2, log ++ [WatchLog.detected])
        | Except.error e => (fs, log ++ [WatchLog.detected, WatchLog.reorgError e])
      else (fs, log)
  | Except.error e => (fs, log ++ [WatchLog.watchError e])

/-- The watch loop `for res in rx` over the (finite prefix of the) event
channel. -/
def watchLoop : List (Except Nat EventKind) → FS → List WatchLog → FS × List WatchLog
  | [], fs, log => (fs, log)
  | r :: rest, fs, log =>
      match watchStep fs log r with
      | (fs2, log2) => watchLoop rest fs2 log2

/-- The watcher environment: whether `RecommendedWatcher::new` succeeds,
whether `watcher.watch(..)` succeeds, and the events the channel delivers. -/
structure WatchEnv where
  initOk : Bool
  attachOk : Bool
  events : List (Except Nat EventKind)

/-- Observable outcome of the process: a normal return (carrying the final
filesystem and watch-loop log), an `io::Error` propagated out of `main`
(nonzero exit code), or a Rust panic (also nonzero exit code, but not a
propagated `io::Result` error). -/
inductive Outcome
  | ok (fs : FS) (log : List WatchLog)
  | ioError (e : Nat)
  | panicked (msg : String)
deriving DecidableEq

/-- `watch_folder` (main.rs lines 143-178).  `RecommendedWatcher::new(..)
.expect("Failed to initialize watcher")` and `watcher.watch(..)
.expect("Failed to start watching folder")` panic on failure; otherwise the
loop runs and the function returns `Ok(())`. -/
def watch_folder (env : WatchEnv) (fs : FS) : Outcome :=
  if env.initOk = false then Outcome.panicked ("Failed to initialize watcher")
  else if env.attachOk = false then Outcome.panicked ("Failed to start watching folder")
  else
    match watchLoop env.events fs [] with
    | (fs2, log) => Outcome.ok fs2 log

/-- `main` (main.rs lines 15-50): one organize pass (`?`-propagating its
error), then, when watch mode is on, `watch_folder` (whose own `io::Result`
is propagated, though it is never an error). -/
def mainRun (fs : FS) (watchMode : Bool) (env : WatchEnv) : Outcome :=
  match organize_files fs with
  | Except.error e => Outcome.ioError e
  | Except.ok fs1 =>
      if watchMode = true then watch_folder env fs1
      else Outcome.ok fs1 []

/-- Process exit code of an outcome: 0 for success, 1 for an error
propagated out of `main() -> io::Result<()>`, 101 for a Rust panic. -/
def exitCode : Outcome → Nat
  | Outcome.ok _ _ => 0
  | Outcome.ioError _ => 1
  | Outcome.panicked _ => 101

/-- Whether the outcome is an `io::Error` propagated out of `main`. -/
def isIoErrorOutcome : Outcome → Bool
  | Outcome.ioError _ => true
  | _ => false

/-!  Derived descriptions of one failure-free pass, used to state the
global claims.  `passSeen` / `passDests` replay the seen-set accumulation
and the destination chosen for each processed file; `eraseNames` replays
the removals `fs::rename` performs on the root listing. -/

/-- The `seen_hashes` set after a failure-free pass over `l`, starting
from `seen`. -/
def passSeen : List Entry → List Digest → List Digest
  | [], seen => seen
  | e :: rest, seen =>
      if isFile e = true then
        if e.content ∈ seen then passSeen rest seen
        else passSeen rest (e.content :: seen)
      else passSeen rest seen

/-- The destination directory chosen for each processed file of `l`, in
processing order. -/
def passDests : List Entry → List Digest → List (List String × Entry)
  | [], _ => []
  | e :: rest, seen =>
      if isFile e = true then
        if e.content ∈ seen then (["duplicates"], e) :: passDests rest seen
        else (classifiedSub e, e) :: passDests rest (e.content :: seen)
      else passDests rest seen

/-- Remove, name after name, the first root entry bearing each name. -/
def eraseNames : List Entry → List String → List Entry
  | r, [] => r
  | r, n :: ns => eraseNames (r.eraseP (fun x => decide (x.name = n))) ns

/-- A processed file with content `c`: the population the duplicate claims
count. -/
def isCFile (c : List Nat) (e : Entry) : Bool :=
  isFile e && decide (e.content = c)

/-- A destination record holding content `c` inside the `duplicates`
folder. -/
def isDupDest (c : List Nat) (d : List String × Entry) : Bool :=
  decide (d.2.content = c) && decide (d.1 = ["duplicates"])

/-- A destination record holding content `c` outside the `duplicates`
folder. -/
def isNonDupDest (c : List Nat) (d : List String × Entry) : Bool :=
  decide (d.2.content = c) && !(decide (d.1 = ["duplicates"]))

/-!  Basic lemmas about the Mover. -/

lemma findSome?_mkdirFailCode_none (fs : FS) (hmk : fs.mkdirFail = []) (l : List (List String)) :
    l.findSome? (mkdirFailCode fs) = none := by
  induction l with
  | nil => exact rfl
  | cons q qs iq =>
      have h1 : mkdirFailCode fs q = none := by
        simp [mkdirFailCode, hmk]
      simp [List.findSome?, h1, iq]

lemma ensureDir_clean (fs : FS) (sub : List String) (hmk : fs.mkdirFail = []) :
    ensureDir fs sub = Except.ok { fs with dirs := moverDirs fs sub } := by
  unfold ensureDir moverDirs
  by_cases h : sub ∈ fs.dirs
  · rw [if_pos h, if_pos h]
  · rw [if_neg h, if_neg h]
    unfold create_dir_all
    rw [findSome?_mkdirFailCode_none fs hmk]

lemma move_to_folder_ok (fs : FS) (e : Entry) (sub : List String)
    (hmk : fs.mkdirFail = []) (hre : e.renameErr = none)
    (hnc : ¬ ((∃ d ∈ fs.destFiles, d.1 = sub ∧ d.2.name = e.name) ∨
              (sub ++ [e.name]) ∈ moverDirs fs sub)) :
    move_to_folder fs e sub = Except.ok
      { fs with
        dirs := moverDirs fs sub,
        rootFiles := fs.rootFiles.eraseP (fun x => decide (x.name = e.name)),
        destFiles := (sub, e) :: fs.destFiles } := by
  unfold move_to_folder
  rw [ensureDir_clean fs sub hmk]
  dsimp only
  rw [if_neg hnc, hre]

lemma move_to_folder_skip (fs : FS) (e : Entry) (sub : List String)
    (hmk : fs.mkdirFail = [])
    (hc : (∃ d ∈ fs.destFiles, d.1 = sub ∧ d.2.name = e.name) ∨
          (sub ++ [e.name]) ∈ moverDirs fs sub) :
    move_to_folder fs e sub = Except.ok { fs with dirs := moverDirs fs sub } := by
  unfold move_to_folder
  rw [ensureDir_clean fs sub hmk]
  dsimp only
  rw [if_pos hc]

lemma mem_moverDirs (fs : FS) (sub x : List String) (hx : x ∈ moverDirs fs sub) :
    x ∈ fs.dirs ∨ x ∈ pathPrefixes sub := by
  unfold moverDirs at hx
  by_cases h : sub ∈ fs.dirs
  · rw [if_pos h] at hx; exact Or.inl hx
  · rw [if_neg h] at hx
    rcases List.mem_append.1 hx with h1 | h1
    · exact Or.inl h1
    · exact Or.inr (List.mem_of_mem_filter h1)

lemma pathPrefixes_length_le (sub p : List String) (hp : p ∈ pathPrefixes sub) :
    p.length ≤ sub.length := by
  unfold pathPrefixes at hp
  rcases List.mem_map.1 hp with ⟨i, _, rfl⟩
  simp [List.length_take_le]

/-!  Basic lemmas about one loop iteration. -/

lemma processEntry_skip (s : List Digest) (fs : FS) (e : Entry) (h : isFile e = false) :
    processEntry s fs e = Except.ok (s, fs) := by
  unfold processEntry
  rw [h]
  simp

lemma processEntry_dup (s : List Digest) (fs : FS) (e : Entry) (h : Digest)
    (hf : isFile e = true) (hh : hash_file e = Except.ok h) (hs : h ∈ s) :
    processEntry s fs e =
      Except.map (fun g => (s, g)) (move_to_folder fs e (["duplicates"])) := by
  unfold processEntry
  rw [hf, hh]
  simp only [if_pos hs]
  cases move_to_folder fs e (["duplicates"]) <;> simp [Except.map]

lemma processEntry_fresh (s : List Digest) (fs : FS) (e : Entry) (h : Digest)
    (hf : isFile e = true) (hh : hash_file e = Except.ok h) (hs : h ∉ s)
    (hm : e.metaErr = none) :
    processEntry s fs e =
      Except.map (fun g => (h :: s, g)) (move_to_folder fs e (classifiedSub e)) := by
  unfold processEntry
  rw [hf, hh]
  simp only [if_neg hs]
  rw [hm]
  cases move_to_folder fs e (classifiedSub e) <;> simp [Except.map]

lemma organizeLoop_append (l1 l2 : List Entry) (seen : List Digest) (fs : FS) :
    organizeLoop (l1 ++ l2) seen fs =
      match organizeLoop l1 seen fs with
      | Except.error c => Except.error c
      | Except.ok (s2, fs2) => organizeLoop l2 s2 fs2 := by
  induction l1 generalizing seen fs with
  | nil => simp [organizeLoop]
  | cons e rest ih =>
      simp only [List.cons_append, organizeLoop]
      cases processEntry seen fs e with
      | error c => rfl
      | ok p => exact ih p.1 p.2

/-!  Facts about the classification table needed for the pass invariant. -/

lemma classify_ne_duplicates (s : String) : classify s ≠ "duplicates" := by
  unfold classify
  split_ifs <;> decide

lemma classifiedSub_ne_duplicates (e : Entry) : classifiedSub e ≠ (["duplicates"]) := by
  simp [classifiedSub]

lemma pathPrefixes_single (a : String) : pathPrefixes [a] = [[a]] := rfl

lemma pathPrefixes_pair (a b : String) : pathPrefixes [a, b] = [[a], [a, b]] := rfl

/-- Invariant characterization of a failure-free loop run: for entries
without I/O failures, with pairwise-distinct names, no name clash with
already-placed destination files, and destination directories of the shape
the Mover itself produces, the loop succeeds and its effect is described by
`passSeen` / `passDests` / `eraseNames`. -/
lemma organizeLoop_clean (l : List Entry) :
    ∀ (seen : List Digest) (fs : FS),
    (∀ e ∈ l, e.hashErr = none ∧ e.metaErr = none ∧ e.renameErr = none) →
    (l.map Entry.name).Nodup →
    (∀ e ∈ l, ∀ d ∈ fs.destFiles, d.2.name ≠ e.name) →
    (∀ d ∈ fs.dirs, d.length ≤ 2 ∧ ∀ x : String, d ≠ ["duplicates", x]) →
    fs.mkdirFail = [] →
    ∃ ds : List (List String),
      organizeLoop l seen fs = Except.ok (passSeen l seen,
        { rootFiles := eraseNames fs.rootFiles ((l.filter (fun e => isFile e)).map Entry.name),
          dirs := ds,
          destFiles := (passDests l seen).reverse ++ fs.destFiles,
          readDirErr := fs.readDirErr,
          mkdirFail := fs.mkdirFail })
      ∧ (∀ d ∈ ds, d.length ≤ 2 ∧ ∀ x : String, d ≠ ["duplicates", x]) := by
  induction l with
  | nil =>
      intro seen fs _ _ _ hDirs _
      exact ⟨fs.dirs, rfl, hDirs⟩
  | cons e rest ih =>
      intro seen fs hErr hNd hDest hDirs hmk
      obtain ⟨he1, he2, he3⟩ := hErr e (List.mem_cons_self e rest)
      have hErr2 : ∀ x ∈ rest, x.hashErr = none ∧ x.metaErr = none ∧ x.renameErr = none :=
        fun x hx => hErr x (List.mem_cons_of_mem e hx)
      rw [List.map_cons, List.nodup_cons] at hNd
      obtain ⟨hname, hNd2⟩ := hNd
      by_cases hf : isFile e = true
      · have hh : hash_file e = Except.ok e.content := by simp [hash_file, he1]
        by_cases hmem : e.content ∈ seen
        · -- duplicate: routed to the flat duplicates folder
          have hnc : ¬ ((∃ d ∈ fs.destFiles, d.1 = (["duplicates"]) ∧ d.2.name = e.name) ∨
                        ((["duplicates"]) ++ [e.name]) ∈ moverDirs fs (["duplicates"])) := by
            rintro (⟨d, hd, _, hd2⟩ | hmemdir)
            · exact hDest e (List.mem_cons_self e rest) d hd hd2
            · rcases mem_moverDirs fs _ _ hmemdir with h1 | h1
              · exact (hDirs _ h1).2 e.name rfl
              · rw [pathPrefixes_single] at h1
                simp at h1
          have hmove := move_to_folder_ok fs e (["duplicates"]) hmk he3 hnc
          have hDest2 : ∀ x ∈ rest, ∀ d ∈
              (((["duplicates"] : List String), e) :: fs.destFiles), d.2.name ≠ x.name := by
            intro x hx d hd
            rcases List.mem_cons.1 hd with rfl | hd2
            · intro hEq
              exact hname (hEq ▸ List.mem_map_of_mem Entry.name hx)
            · exact hDest x (List.mem_cons_of_mem e hx) d hd2
          have hDirs2 : ∀ d ∈ moverDirs fs (["duplicates"]),
              d.length ≤ 2 ∧ ∀ x : String, d ≠ ["duplicates", x] := by
            intro d hd
            rcases mem_moverDirs fs _ _ hd with h1 | h1
            · exact hDirs d h1
            · rw [pathPrefixes_single] at h1
              simp only [List.mem_singleton] at h1
              subst h1
              exact ⟨by simp, fun x => by simp⟩
          obtain ⟨ds, hloop, hds⟩ := ih seen
            { fs with
              dirs := moverDirs fs (["duplicates"]),
              rootFiles := fs.rootFiles.eraseP (fun x => decide (x.name = e.name)),
              destFiles := ((["duplicates"] : List String), e) :: fs.destFiles }
            hErr2 hNd2 hDest2 hDirs2 hmk
          refine ⟨ds, ?_, hds⟩
          have hstep : organizeLoop (e :: rest) seen fs = organizeLoop rest seen
              { fs with
                dirs := moverDirs fs (["duplicates"]),
                rootFiles := fs.rootFiles.eraseP (fun x => decide (x.name = e.name)),
                destFiles := ((["duplicates"] : List String), e) :: fs.destFiles } := by
            simp only [organizeLoop]
            rw [processEntry_dup seen fs e e.content hf hh hmem, hmove]
            rfl
          rw [hstep, hloop]
          simp [passSeen, passDests, eraseNames, hf, hmem, List.reverse_cons,
            List.append_assoc]
        · -- fresh content: classified and moved to the dated subfolder
          have hlen3 : (classifiedSub e ++ [e.name]).length = 3 := by simp [classifiedSub]
          have hpp : pathPrefixes (classifiedSub e) =
              [[classify (lowerExt e)], [classify (lowerExt e), e.mtime]] := rfl
          have hnc : ¬ ((∃ d ∈ fs.destFiles, d.1 = classifiedSub e ∧ d.2.name = e.name) ∨
                        (classifiedSub e ++ [e.name]) ∈ moverDirs fs (classifiedSub e)) := by
            rintro (⟨d, hd, _, hd2⟩ | hmemdir)
            · exact hDest e (List.mem_cons_self e rest) d hd hd2
            · rcases mem_moverDirs fs _ _ hmemdir with h1 | h1
              · have h2 := (hDirs _ h1).1
                rw [hlen3] at h2
                omega
              · have hle := pathPrefixes_length_le (classifiedSub e) _ h1
                have h4 : (classifiedSub e).length = 2 := by simp [classifiedSub]
                rw [hlen3, h4] at hle
                omega
          have hmove := move_to_folder_ok fs e (classifiedSub e) hmk he3 hnc
          have hDest2 : ∀ x ∈ rest, ∀ d ∈ ((classifiedSub e, e) :: fs.destFiles),
              d.2.name ≠ x.name := by
            intro x hx d hd
            rcases List.mem_cons.1 hd with rfl | hd2
            · intro hEq
              exact hname (hEq ▸ List.mem_map_of_mem Entry.name hx)
            · exact hDest x (List.mem_cons_of_mem e hx) d hd2
          have hDirs2 : ∀ d ∈ moverDirs fs (classifiedSub e),
              d.length ≤ 2 ∧ ∀ x : String, d ≠ ["duplicates", x] := by
            intro d hd
            rcases mem_moverDirs fs _ _ hd with h1 | h1
            · exact hDirs d h1
            · rw [hpp] at h1
              rcases List.mem_cons.1 h1 with rfl | h2
              · exact ⟨by simp, fun x => by simp⟩
              · simp only [List.mem_singleton] at h2
                subst h2
                refine ⟨by simp, fun x heq => ?_⟩
                simp only [List.cons.injEq] at heq
                exact classify_ne_duplicates _ heq.1
          obtain ⟨ds, hloop, hds⟩ := ih (e.content :: seen)
            { fs with
              dirs := moverDirs fs (classifiedSub e),
              rootFiles := fs.rootFiles.eraseP (fun x => decide (x.name = e.name)),
              destFiles := (classifiedSub e, e) :: fs.destFiles }
            hErr2 hNd2 hDest2 hDirs2 hmk
          refine ⟨ds, ?_, hds⟩
          have hstep : organizeLoop (e :: rest) seen fs = organizeLoop rest (e.content :: seen)
              { fs with
                dirs := moverDirs fs (classifiedSub e),
                rootFiles := fs.rootFiles.eraseP (fun x => decide (x.name = e.name)),
                destFiles := (classifiedSub e, e) :: fs.destFiles } := by
            simp only [organizeLoop]
            rw [processEntry_fresh seen fs e e.content hf hh hmem he2, hmove]
            rfl
          rw [hstep, hloop]
          simp [passSeen, passDests, eraseNames, hf, hmem, List.reverse_cons,
            List.append_assoc]
      · -- not a file: skipped in place
        rw [Bool.not_eq_true] at hf
        have hstep : organizeLoop (e :: rest) seen fs = organizeLoop rest seen fs := by
          simp only [organizeLoop]
          rw [processEntry_skip seen fs e hf]
        obtain ⟨ds, hloop, hds⟩ := ih seen fs hErr2 hNd2
          (fun x hx => hDest x (List.mem_cons_of_mem e hx)) hDirs hmk
        refine ⟨ds, ?_, hds⟩
        rw [hstep, hloop]
        simp [passSeen, passDests, hf]

/-!  From `eraseNames` to `filter`, under distinct names. -/

lemma eraseNames_cons_notmem (e : Entry) (r : List Entry) (ns : List String)
    (h : e.name ∉ ns) :
    eraseNames (e :: r) ns = e :: eraseNames r ns := by
  induction ns generalizing r with
  | nil => rfl
  | cons n ns2 ih =>
      have hne : e.name ≠ n := fun hc => h (hc ▸ List.mem_cons_self n ns2)
      have herase : (e :: r).eraseP (fun x => decide (x.name = n)) =
          e :: r.eraseP (fun x => decide (x.name = n)) := by
        simp [List.eraseP_cons, hne]
      simp only [eraseNames]
      rw [herase]
      exact ih (r.eraseP (fun x => decide (x.name = n)))
        (fun hc => h (List.mem_cons_of_mem n hc))

lemma eraseNames_filter (r : List Entry) (h : (r.map Entry.name).Nodup) :
    eraseNames r ((r.filter (fun e => isFile e)).map Entry.name) =
      r.filter (fun e => !(isFile e)) := by
  induction r with
  | nil => rfl
  | cons e rest ih =>
      rw [List.map_cons, List.nodup_cons] at h
      obtain ⟨hname, h2⟩ := h
      by_cases hf : isFile e = true
      · rw [List.filter_cons_of_pos hf, List.map_cons]
        have herase : (e :: rest).eraseP (fun x => decide (x.name = e.name)) = rest := by
          simp [List.eraseP_cons]
        simp only [eraseNames]
        rw [herase, ih h2, List.filter_cons_of_neg (by simp [hf])]
      · rw [Bool.not_eq_true] at hf
        rw [List.filter_cons_of_neg (by simp [hf])]
        have hnotin : e.name ∉ (rest.filter (fun x => isFile x)).map Entry.name := by
          intro hc
          rcases List.mem_map.1 hc with ⟨x, hx1, hx2⟩
          exact hname (hx2 ▸ List.mem_map_of_mem Entry.name (List.mem_of_mem_filter hx1))
        rw [eraseNames_cons_notmem e rest _ hnotin, ih h2,
          List.filter_cons_of_pos (by simp [hf])]

/-- A failure-free pass over a target directory whose destination tree is
empty: the result is fully described by `passDests`, and every processed
file has left the root. -/
lemma organize_files_clean (fs : FS)
    (hErr : ∀ e ∈ fs.rootFiles, e.hashErr = none ∧ e.metaErr = none ∧ e.renameErr = none)
    (hNd : (fs.rootFiles.map Entry.name).Nodup)
    (hDest : fs.destFiles = []) (hDirs : fs.dirs = [])
    (hmk : fs.mkdirFail = []) (hRd : fs.readDirErr = none) :
    ∃ ds : List (List String),
      organize_files fs = Except.ok
        { rootFiles := fs.rootFiles.filter (fun e => !(isFile e)),
          dirs := ds,
          destFiles := (passDests fs.rootFiles []).reverse,
          readDirErr := none,
          mkdirFail := [] } := by
  have hDest2 : ∀ e ∈ fs.rootFiles, ∀ d ∈ fs.destFiles, d.2.name ≠ e.name := by
    rw [hDest]; intro e _ d hd; cases hd
  have hDirs2 : ∀ d ∈ fs.dirs, d.length ≤ 2 ∧ ∀ x : String, d ≠ ["duplicates", x] := by
    rw [hDirs]; intro d hd; cases hd
  obtain ⟨ds, hloop, _⟩ := organizeLoop_clean fs.rootFiles [] fs hErr hNd hDest2 hDirs2 hmk
  refine ⟨ds, ?_⟩
  unfold organize_files
  rw [hRd, hloop]
  rw [eraseNames_filter fs.rootFiles hNd]
  rw [hDest, hmk, hRd, List.append_nil]

/-- A pass over a directory with no processable direct children does
nothing and cannot fail. -/
lemma organize_files_noFiles (fs : FS)
    (hRd : fs.readDirErr = none)
    (hnf : ∀ e ∈ fs.rootFiles, isFile e = false) :
    organize_files fs = Except.ok fs := by
  have hloop : ∀ (l : List Entry), (∀ e ∈ l, isFile e = false) →
      ∀ seen, organizeLoop l seen fs = Except.ok (seen, fs) := by
    intro l
    induction l with
    | nil => intro _ seen; rfl
    | cons e rest ih =>
        intro h seen
        simp only [organizeLoop]
        rw [processEntry_skip seen fs e (h e (List.mem_cons_self e rest))]
        exact ih (fun x hx => h x (List.mem_cons_of_mem e hx)) seen
  unfold organize_files
  rw [hRd, hloop fs.rootFiles hnf []]

/-!  Counting contents in `passDests`. -/

lemma passDests_seen (l : List Entry) :
    ∀ (seen : List Digest) (c : List Nat), c ∈ seen →
      (passDests l seen).filter (isNonDupDest c) = []
      ∧ ((passDests l seen).filter (isDupDest c)).map Prod.snd = l.filter (isCFile c) := by
  induction l with
  | nil => intro seen c _; exact ⟨rfl, rfl⟩
  | cons e rest ih =>
      intro seen c hc
      by_cases hf : isFile e = true
      · by_cases hmem : e.content ∈ seen
        · -- e routed to duplicates
          obtain ⟨ih1, ih2⟩ := ih seen c hc
          by_cases hec : e.content = c
          · constructor
            · simp only [passDests, hf, if_true, if_pos hmem]
              rw [List.filter_cons_of_neg (by simp [isNonDupDest, hec])]
              exact ih1
            · simp only [passDests, hf, if_true, if_pos hmem]
              rw [List.filter_cons_of_pos (by simp [isDupDest, hec]), List.map_cons, ih2,
                List.filter_cons_of_pos (by simp [isCFile, hf, hec])]
          · constructor
            · simp only [passDests, hf, if_true, if_pos hmem]
              rw [List.filter_cons_of_neg (by simp [isNonDupDest, hec])]
              exact ih1
            · simp only [passDests, hf, if_true, if_pos hmem]
              rw [List.filter_cons_of_neg (by simp [isDupDest, hec]), ih2,
                List.filter_cons_of_neg (by simp [isCFile, hec])]
        · -- e fresh; note e.content ≠ c since c ∈ seen
          have hec : e.content ≠ c := fun hEq => hmem (hEq ▸ hc)
          obtain ⟨ih1, ih2⟩ := ih (e.content :: seen) c (List.mem_cons_of_mem _ hc)
          constructor
          · simp only [passDests, hf, if_true, if_neg hmem]
            rw [List.filter_cons_of_neg (by simp [isNonDupDest, hec])]
            exact ih1
          · simp only [passDests, hf, if_true, if_neg hmem]
            rw [List.filter_cons_of_neg (by simp [isDupDest, hec]), ih2,
              List.filter_cons_of_neg (by simp [isCFile, hec])]
      · rw [Bool.not_eq_true] at hf
        obtain ⟨ih1, ih2⟩ := ih seen c hc
        constructor
        · simp only [passDests, hf]
          simp only [Bool.false_eq_true, if_false]
          exact ih1
        · simp only [passDests, hf]
          simp only [Bool.false_eq_true, if_false]
          rw [ih2, List.filter_cons_of_neg (by simp [isCFile, hf])]

lemma passDests_fresh (l : List Entry) :
    ∀ (seen : List Digest) (c : List Nat), c ∉ seen →
      (passDests l seen).filter (isNonDupDest c) =
        ((l.filter (isCFile c)).take 1).map (fun e => (classifiedSub e, e))
      ∧ ((passDests l seen).filter (isDupDest c)).map Prod.snd =
        (l.filter (isCFile c)).drop 1 := by
  induction l with
  | nil => intro seen c _; exact ⟨rfl, rfl⟩
  | cons e rest ih =>
      intro seen c hc
      by_cases hf : isFile e = true
      · by_cases hec : e.content = c
        · -- first occurrence of content c
          have hmem : e.content ∉ seen := fun hx => hc (hec ▸ hx)
          obtain ⟨a1, a2⟩ := passDests_seen rest (e.content :: seen) c
            (hec ▸ List.mem_cons_self e.content seen)
          constructor
          · simp only [passDests, hf, if_true, if_neg hmem]
            rw [List.filter_cons_of_pos
              (by simp [isNonDupDest, hec, classifiedSub_ne_duplicates]), a1,
              List.filter_cons_of_pos (by simp [isCFile, hf, hec])]
            simp
          · simp only [passDests, hf, if_true, if_neg hmem]
            rw [List.filter_cons_of_neg
              (by simp [isDupDest, classifiedSub_ne_duplicates]), a2,
              List.filter_cons_of_pos (by simp [isCFile, hf, hec])]
            simp
        · by_cases hmem : e.content ∈ seen
          · obtain ⟨ih1, ih2⟩ := ih seen c hc
            constructor
            · simp only [passDests, hf, if_true, if_pos hmem]
              rw [List.filter_cons_of_neg (by simp [isNonDupDest, hec]), ih1,
                List.filter_cons_of_neg (by simp [isCFile, hec])]
            · simp only [passDests, hf, if_true, if_pos hmem]
              rw [List.filter_cons_of_neg (by simp [isDupDest, hec]), ih2,
                List.filter_cons_of_neg (by simp [isCFile, hec])]
          · obtain ⟨ih1, ih2⟩ := ih (e.content :: seen) c
              (fun hx => (List.mem_cons.1 hx).elim (fun h2 => hec h2.symm) hc)
            constructor
            · simp only [passDests, hf, if_true, if_neg hmem]
              rw [List.filter_cons_of_neg (by simp [isNonDupDest, hec]), ih1,
                List.filter_cons_of_neg (by simp [isCFile, hec])]
            · simp only [passDests, hf, if_true, if_neg hmem]
              rw [List.filter_cons_of_neg (by simp [isDupDest, hec]), ih2,
                List.filter_cons_of_neg (by simp [isCFile, hec])]
      · rw [Bool.not_eq_true] at hf
        obtain ⟨ih1, ih2⟩ := ih seen c hc
        constructor
        · simp only [passDests, hf, Bool.false_eq_true, if_false]
          rw [ih1, List.filter_cons_of_neg (by simp [isCFile, hf])]
        · simp only [passDests, hf, Bool.false_eq_true, if_false]
          rw [ih2, List.filter_cons_of_neg (by simp [isCFile, hf])]

/-!  Claim theorems. -/

/-- C3: when a file with the same name already exists at the computed
destination path, the Mover silently skips the move: the source file is
left untouched in place, nothing is overwritten, no rename-on-conflict
occurs, and the Mover returns success — the filesystem is returned exactly
as it was. -/
theorem C3_conflict_skip (fs : FS) (e : Entry) (sub : List String)
    (d : List String × Entry)
    (hd : d ∈ fs.destFiles) (hd1 : d.1 = sub) (hd2 : d.2.name = e.name)
    (hdir : sub ∈ fs.dirs) :
    move_to_folder fs e sub = Except.ok fs := by
  unfold move_to_folder ensureDir
  rw [if_pos hdir]
  exact if_pos (Or.inl ⟨d, hd, hd1, hd2⟩)

def eC3 : Entry := ⟨"a.txt", EntryKind.file, [1], "2025-01-01", none, none, none⟩
def eC3old : Entry := ⟨"a.txt", EntryKind.file, [2], "2024-12-31", none, none, none⟩
def fsC3 : FS := ⟨[eC3], [["documents"]], [(["documents"], eC3old)], none, []⟩

/-- Witness for C3 at a concrete conflicting filesystem. -/
theorem C3_conflict_skip_witness : move_to_folder fsC3 eC3 (["documents"]) = Except.ok fsC3 :=
  C3_conflict_skip fsC3 eC3 (["documents"]) ((["documents"]), eC3old)
    (by decide) rfl rfl (by decide)

/-- C10: the Mover creates the destination directory — including every
missing intermediate level — before the destination-name conflict check, so
the directory ends up existing even when the move itself is skipped because
a same-named file already occupies the destination; root listing and
destination files are unchanged in that case. -/
theorem C10_dir_created_despite_skip (fs : FS) (e : Entry) (sub : List String)
    (d : List String × Entry) (p : List String)
    (hd : d ∈ fs.destFiles) (hd1 : d.1 = sub) (hd2 : d.2.name = e.name)
    (hmk : fs.mkdirFail = []) (hns : sub ∉ fs.dirs) (hp : p ∈ pathPrefixes sub) :
    move_to_folder fs e sub = Except.ok { fs with dirs := moverDirs fs sub }
    ∧ p ∈ moverDirs fs sub
    ∧ ({ fs with dirs := moverDirs fs sub } : FS).destFiles = fs.destFiles
    ∧ ({ fs with dirs := moverDirs fs sub } : FS).rootFiles = fs.rootFiles := by
  refine ⟨move_to_folder_skip fs e sub hmk (Or.inl ⟨d, hd, hd1, hd2⟩), ?_, rfl, rfl⟩
  unfold moverDirs
  rw [if_neg hns]
  by_cases hpd : p ∈ fs.dirs
  · exact List.mem_append.2 (Or.inl hpd)
  · exact List.mem_append.2 (Or.inr (List.mem_filter.2 ⟨hp, by simp [hpd]⟩))

def eC10 : Entry := ⟨"x.jpg", EntryKind.file, [3], "2025-02-02", none, none, none⟩
def eC10old : Entry := ⟨"x.jpg", EntryKind.file, [4], "2024-02-02", none, none, none⟩
def fsC10 : FS := ⟨[eC10], [], [(["images", "2025-02-02"], eC10old)], none, []⟩

/-- Witness for C10: the conflicting destination directory is absent, yet
after the (skipped) move both it and its parent exist. -/
theorem C10_dir_created_despite_skip_witness :
    move_to_folder fsC10 eC10 (["images", "2025-02-02"]) =
      Except.ok { fsC10 with dirs := moverDirs fsC10 (["images", "2025-02-02"]) }
    ∧ (["images"] : List String) ∈ moverDirs fsC10 (["images", "2025-02-02"])
    ∧ ({ fsC10 with dirs := moverDirs fsC10 (["images", "2025-02-02"]) } : FS).destFiles =
        fsC10.destFiles
    ∧ ({ fsC10 with dirs := moverDirs fsC10 (["images", "2025-02-02"]) } : FS).rootFiles =
        fsC10.rootFiles :=
  C10_dir_created_despite_skip fsC10 eC10 (["images", "2025-02-02"])
    ((["images", "2025-02-02"]), eC10old) (["images"])
    (by decide) rfl rfl rfl (by decide) (by decide)

/-- C5: a failure while hashing or while moving (including directory
creation) any single file aborts the entire pass at that entry: the error
propagates out of `organize_files`, whatever the remaining entries are —
there is no per-file fault isolation. -/
theorem C5_single_failure_aborts (fs : FS) (l1 l2 : List Entry) (e : Entry)
    (s1 : List Digest) (fs1 : FS) (err : Nat)
    (hroot : fs.rootFiles = l1 ++ e :: l2)
    (hRd : fs.readDirErr = none)
    (h1 : organizeLoop l1 [] fs = Except.ok (s1, fs1))
    (h2 : processEntry s1 fs1 e = Except.error err) :
    organize_files fs = Except.error err := by
  unfold organize_files
  rw [hRd, hroot, organizeLoop_append, h1]
  simp only [organizeLoop]
  rw [h2]

def eC5 : Entry := ⟨"bad.txt", EntryKind.file, [9], "2025-03-03", some 5, none, none⟩
def eC5b : Entry := ⟨"later.txt", EntryKind.file, [10], "2025-03-03", none, none, none⟩
def fsC5 : FS := ⟨[eC5, eC5b], [], [], none, []⟩

/-- Witness for C5: the first entry fails to hash (oracle code 5) and the
whole pass returns that error, with a further entry pending. -/
theorem C5_single_failure_aborts_witness : organize_files fsC5 = Except.error 5 :=
  C5_single_failure_aborts fsC5 [] [eC5b] eC5 [] fsC5 5
    rfl rfl rfl rfl

/-- C8 (amended): only entries for which `is_file()` holds are processed;
directories, special files and symbolic links that do not resolve to a
regular file are skipped and left in place — but `is_file()` traverses
links, so a symbolic link resolving to a regular file is processed. -/
theorem C8_only_isfile_processed (e : Entry) (s : List Digest) (g : FS)
    (rest : List Entry) (e2 : Entry) (hnf : isFile e = false) :
    processEntry s g e = Except.ok (s, g)
    ∧ organizeLoop (e :: rest) s g = organizeLoop rest s g
    ∧ (isFile e2 = true ↔
        (e2.kind = EntryKind.file ∨ e2.kind = EntryKind.symlink SymTarget.toFile)) := by
  refine ⟨processEntry_skip s g e hnf, ?_, ?_⟩
  · simp only [organizeLoop]
    rw [processEntry_skip s g e hnf]
  · obtain ⟨n2, k2, c2, m2, x1, x2, x3⟩ := e2
    cases k2 with
    | file => simp [isFile]
    | dir => simp [isFile]
    | symlink t => cases t <;> simp [isFile]
    | other => simp [isFile]

def eC8dir : Entry := ⟨"subdir", EntryKind.dir, [], "2025-01-01", none, none, none⟩
def eC8other : Entry := ⟨"probe", EntryKind.other, [], "2025-01-01", none, none, none⟩
def fsC8w : FS := ⟨[eC8dir, eC8other], [], [], none, []⟩

/-- Witness for C8's amended statement at a directory entry. -/
theorem C8_only_isfile_processed_witness :
    processEntry [] fsC8w eC8dir = Except.ok ([], fsC8w)
    ∧ organizeLoop [eC8dir, eC8other] [] fsC8w = organizeLoop [eC8other] [] fsC8w
    ∧ (isFile eC8other = true ↔
        (eC8other.kind = EntryKind.file ∨ eC8other.kind = EntryKind.symlink SymTarget.toFile)) :=
  C8_only_isfile_processed eC8dir [] fsC8w [eC8other] eC8other (by decide)

def eC8sym : Entry := ⟨"s.txt", EntryKind.symlink SymTarget.toFile, [1], "2025-01-05", none, none, none⟩
def fsC8sym : FS := ⟨[eC8sym], [], [], none, []⟩
def fsC8symAfter : FS :=
  ⟨[], [["documents"], ["documents", "2025-01-05"]], [(["documents", "2025-01-05"], eC8sym)], none, []⟩

/-- Counterexample to C8 as stated: a symbolic link that resolves to a
regular file is NOT skipped — the pass hashes, classifies and moves it
(the root ends empty, the link sits under documents/). -/
theorem C8_counterexample :
    organize_files fsC8sym = Except.ok fsC8symAfter
    ∧ eC8sym.kind = EntryKind.symlink SymTarget.toFile
    ∧ fsC8symAfter.rootFiles = []
    ∧ fsC8symAfter.destFiles = [((["documents", "2025-01-05"]), eC8sym)] := by
  refine ⟨by decide, rfl, rfl, rfl⟩

/-- C6: inside the watch loop, neither a delivery error reported by the
event source nor an I/O error raised by a triggered reorganization pass
terminates the loop: both are logged and the loop goes on processing the
remaining events with the filesystem state it had. -/
theorem C6_watch_loop_survives_errors (e : Nat) (rest : List (Except Nat EventKind))
    (fs : FS) (log : List WatchLog) (k : EventKind)
    (rest2 : List (Except Nat EventKind)) (fs2 : FS) (log2 : List WatchLog) (err : Nat)
    (hq : qualifies k = true) (ho : organize_files fs2 = Except.error err) :
    watchLoop (Except.error e :: rest) fs log =
      watchLoop rest fs (log ++ [WatchLog.watchError e])
    ∧ watchLoop (Except.ok k :: rest2) fs2 log2 =
        watchLoop rest2 fs2 (log2 ++ [WatchLog.detected, WatchLog.reorgError err]) := by
  constructor
  · rfl
  · simp only [watchLoop, watchStep, hq, if_true]
    rw [ho]

def fsC6 : FS := ⟨[⟨"bad.txt", EntryKind.file, [9], "2025-03-03", some 7, none, none⟩], [], [], none, []⟩

/-- Witness for C6: a delivery error (code 3) and a qualifying event whose
triggered pass fails (code 7) both leave the loop running. -/
theorem C6_watch_loop_survives_errors_witness :
    watchLoop (Except.error 3 :: [Except.ok EventKind.other]) fsC6 [] =
      watchLoop [Except.ok EventKind.other] fsC6 ([] ++ [WatchLog.watchError 3])
    ∧ watchLoop (Except.ok (EventKind.create CreateKind.file) :: []) fsC6 [] =
        watchLoop [] fsC6 ([] ++ [WatchLog.detected, WatchLog.reorgError 7]) :=
  C6_watch_loop_survives_errors 3 [Except.ok EventKind.other] fsC6 []
    (EventKind.create CreateKind.file) [] fsC6 [] 7 rfl (by decide)

/-- C7: a full reorganization pass (over the entire filesystem state) is
triggered exactly by file-creation events and data-modification events;
metadata-only modifications, renames, accesses, removals and unclassified
events are ignored without any effect or log line. -/
theorem C7_qualifying_events (k1 : EventKind) (fsX : FS) (logX : List WatchLog)
    (k2 : EventKind) (fsY fsY1 : FS) (logY : List WatchLog)
    (c : CreateKind) (dd : DataChange) (m : MetadataKind) (r : RenameMode)
    (a : AccessKind) (rm : RemoveKind)
    (hk1 : qualifies k1 = false) (hk2 : qualifies k2 = true)
    (hoY : organize_files fsY = Except.ok fsY1) :
    watchStep fsX logX (Except.ok k1) = (fsX, logX)
    ∧ watchStep fsY logY (Except.ok k2) = (fsY1, logY ++ [WatchLog.detected])
    ∧ qualifies (EventKind.create c) = true
    ∧ qualifies (EventKind.modify (ModifyKind.data dd)) = true
    ∧ qualifies (EventKind.modify (ModifyKind.metadata m)) = false
    ∧ qualifies (EventKind.modify (ModifyKind.name r)) = false
    ∧ qualifies (EventKind.modify ModifyKind.any) = false
    ∧ qualifies (EventKind.modify ModifyKind.other) = false
    ∧ qualifies (EventKind.access a) = false
    ∧ qualifies (EventKind.remove rm) = false
    ∧ qualifies EventKind.any = false
    ∧ qualifies EventKind.other = false := by
  refine ⟨?_, ?_, rfl, rfl, rfl, rfl, rfl, rfl, rfl, rfl, rfl, rfl⟩
  · simp [watchStep, hk1]
  · simp only [watchStep, hk2, if_true]
    rw [hoY]

def fsC7 : FS := ⟨[], [], [], none, []⟩

/-- Witness for C7: a metadata-only modification is ignored, a data
modification triggers a (here trivial) full pass. -/
theorem C7_qualifying_events_witness :
    watchStep fsC7 [] (Except.ok (EventKind.modify (ModifyKind.metadata MetadataKind.permissions))) =
      (fsC7, [])
    ∧ watchStep fsC7 [] (Except.ok (EventKind.modify (ModifyKind.data DataChange.content))) =
        (fsC7, [] ++ [WatchLog.detected])
    ∧ qualifies (EventKind.create CreateKind.any) = true
    ∧ qualifies (EventKind.modify (ModifyKind.data DataChange.size)) = true
    ∧ qualifies (EventKind.modify (ModifyKind.metadata MetadataKind.writeTime)) = false
    ∧ qualifies (EventKind.modify (ModifyKind.name RenameMode.both)) = false
    ∧ qualifies (EventKind.modify ModifyKind.any) = false
    ∧ qualifies (EventKind.modify ModifyKind.other) = false
    ∧ qualifies (EventKind.access AccessKind.any) = false
    ∧ qualifies (EventKind.remove RemoveKind.file) = false
    ∧ qualifies EventKind.any = false
    ∧ qualifies EventKind.other = false :=
  C7_qualifying_events (EventKind.modify (ModifyKind.metadata MetadataKind.permissions)) fsC7 []
    (EventKind.modify (ModifyKind.data DataChange.content)) fsC7 fsC7 []
    CreateKind.any DataChange.size MetadataKind.writeTime RenameMode.both
    AccessKind.any RemoveKind.file rfl rfl (by decide)

/-- C4 (amended): exit code 0 on success; an unrecoverable I/O failure of
the initial pass propagates out of `main` as the `io::Result` error and
yields a nonzero exit code; a failure to initialize or to attach the
filesystem watcher at watch-mode startup is also fatal and aborts the
program with a nonzero exit code — but through a panic (`expect`), not
through a propagated I/O error. -/
theorem C4_exit_codes (fsA fs1 : FS) (envA : WatchEnv)
    (fsB : FS) (eB : Nat) (wB : Bool) (envB : WatchEnv)
    (fsC fsC1 : FS) (envC : WatchEnv)
    (fsD fsD1 : FS) (envD : WatchEnv)
    (hA : organize_files fsA = Except.ok fs1)
    (hB : organize_files fsB = Except.error eB)
    (hC : organize_files fsC = Except.ok fsC1) (hCi : envC.initOk = false)
    (hD : organize_files fsD = Except.ok fsD1) (hDi : envD.initOk = true)
    (hDa : envD.attachOk = false) :
    mainRun fsA false envA = Outcome.ok fs1 []
    ∧ exitCode (mainRun fsA false envA) = 0
    ∧ mainRun fsB wB envB = Outcome.ioError eB
    ∧ isIoErrorOutcome (mainRun fsB wB envB) = true
    ∧ exitCode (mainRun fsB wB envB) ≠ 0
    ∧ mainRun fsC true envC = Outcome.panicked ("Failed to initialize watcher")
    ∧ isIoErrorOutcome (mainRun fsC true envC) = false
    ∧ exitCode (mainRun fsC true envC) ≠ 0
    ∧ mainRun fsD true envD = Outcome.panicked ("Failed to start watching folder")
    ∧ isIoErrorOutcome (mainRun fsD true envD) = false
    ∧ exitCode (mainRun fsD true envD) ≠ 0 := by
  have h1 : mainRun fsA false envA = Outcome.ok fs1 [] := by
    unfold mainRun
    rw [hA]
    rfl
  have h2 : mainRun fsB wB envB = Outcome.ioError eB := by
    unfold mainRun
    rw [hB]
  have h3 : mainRun fsC true envC = Outcome.panicked ("Failed to initialize watcher") := by
    unfold mainRun
    rw [hC]
    unfold watch_folder
    rw [hCi]
    simp
  have h4 : mainRun fsD true envD = Outcome.panicked ("Failed to start watching folder") := by
    unfold mainRun
    rw [hD]
    unfold watch_folder
    rw [hDi, hDa]
    simp
  refine ⟨h1, by rw [h1]; rfl, h2, by rw [h2]; rfl, by rw [h2]; exact Nat.one_ne_zero,
    h3, by rw [h3]; rfl, by rw [h3]; decide,
    h4, by rw [h4]; rfl, by rw [h4]; decide⟩

def fsC4 : FS := ⟨[], [], [], none, []⟩
def fsC4bad : FS := ⟨[⟨"p.txt", EntryKind.file, [1], "2025-01-01", some 9, none, none⟩], [], [], none, []⟩
def envC4ok : WatchEnv := ⟨true, true, []⟩
def envC4noInit : WatchEnv := ⟨false, true, []⟩
def envC4noAttach : WatchEnv := ⟨true, false, []⟩

/-- Witness for C4's amended statement at concrete runs. -/
theorem C4_exit_codes_witness :
    mainRun fsC4 false envC4ok = Outcome.ok fsC4 []
    ∧ exitCode (mainRun fsC4 false envC4ok) = 0
    ∧ mainRun fsC4bad true envC4ok = Outcome.ioError 9
    ∧ isIoErrorOutcome (mainRun fsC4bad true envC4ok) = true
    ∧ exitCode (mainRun fsC4bad true envC4ok) ≠ 0
    ∧ mainRun fsC4 true envC4noInit = Outcome.panicked ("Failed to initialize watcher")
    ∧ isIoErrorOutcome (mainRun fsC4 true envC4noInit) = false
    ∧ exitCode (mainRun fsC4 true envC4noInit) ≠ 0
    ∧ mainRun fsC4 true envC4noAttach = Outcome.panicked ("Failed to start watching folder")
    ∧ isIoErrorOutcome (mainRun fsC4 true envC4noAttach) = false
    ∧ exitCode (mainRun fsC4 true envC4noAttach) ≠ 0 :=
  C4_exit_codes fsC4 fsC4 envC4ok fsC4bad 9 true envC4ok fsC4 fsC4 envC4noInit
    fsC4 fsC4 envC4noAttach rfl (by decide) rfl rfl
    rfl rfl rfl

/-- Counterexample to C4 as stated: with a healthy initial pass and a
watcher that fails to initialize, the process aborts with a nonzero exit
code, but the outcome is a panic, not a propagated I/O error as the claim
asserts. -/
theorem C4_counterexample :
    mainRun fsC4 true envC4noInit = Outcome.panicked ("Failed to initialize watcher")
    ∧ isIoErrorOutcome (mainRun fsC4 true envC4noInit) = false
    ∧ exitCode (mainRun fsC4 true envC4noInit) ≠ 0 := by
  refine ⟨by decide, rfl, by decide⟩

/-- C2: a file whose content has not been seen in the pass has its digest
recorded, is classified solely by its lowercased extension through the
fixed total table (defaulting to others, also for a missing extension), and
is moved to `<category>/<modified-date>/<original-name>`; the
classification itself has no failure mode (it is a total function), and the
whole step fails only through the I/O oracles, which are assumed clean
here, with a conflict-free destination. -/
theorem C2_classification (s : List Digest) (fs : FS) (e : Entry) (x : String)
    (hf : isFile e = true) (hh : e.hashErr = none) (hm : e.metaErr = none)
    (hr : e.renameErr = none) (hs : e.content ∉ s) (hmk : fs.mkdirFail = [])
    (hnc : ¬ ((∃ d ∈ fs.destFiles, d.1 = classifiedSub e ∧ d.2.name = e.name) ∨
              (classifiedSub e ++ [e.name]) ∈ moverDirs fs (classifiedSub e)))
    (hx : x ∉ (["jpg", "jpeg", "png", "bmp", "tiff", "gif", "mp4", "mov", "avi", "mkv",
                "mp3", "wav", "flac", "pdf", "docx", "txt", "zip", "rar",
                "7z"] : List String)) :
    processEntry s fs e = Except.ok (e.content :: s,
      { fs with
        dirs := moverDirs fs (classifiedSub e),
        rootFiles := fs.rootFiles.eraseP (fun y => decide (y.name = e.name)),
        destFiles := (classifiedSub e, e) :: fs.destFiles })
    ∧ classifiedSub e = [classify (lowerExt e), e.mtime]
    ∧ lowerExt e = lowerStr (Option.getD (rustExtension e.name) (""))
    ∧ classify ("jpg") = "images" ∧ classify ("jpeg") = "images"
    ∧ classify ("png") = "images" ∧ classify ("bmp") = "images"
    ∧ classify ("tiff") = "images" ∧ classify ("gif") = "gifs"
    ∧ classify ("mp4") = "videos" ∧ classify ("mov") = "videos"
    ∧ classify ("avi") = "videos" ∧ classify ("mkv") = "videos"
    ∧ classify ("mp3") = "audio" ∧ classify ("wav") = "audio"
    ∧ classify ("flac") = "audio" ∧ classify ("pdf") = "documents"
    ∧ classify ("docx") = "documents" ∧ classify ("txt") = "documents"
    ∧ classify ("zip") = "archives" ∧ classify ("rar") = "archives"
    ∧ classify ("7z") = "archives" ∧ classify ("") = "others"
    ∧ classify x = "others" := by
  have hh2 : hash_file e = Except.ok e.content := by simp [hash_file, hh]
  have hdefault : classify x = "others" := by
    unfold classify
    split_ifs with h1 h2 h3 h4 h5 h6
    · rcases h1 with rfl | rfl | rfl | rfl | rfl <;> exact absurd (by decide) hx
    · subst h2; exact absurd (by decide) hx
    · rcases h3 with rfl | rfl | rfl | rfl <;> exact absurd (by decide) hx
    · rcases h4 with rfl | rfl | rfl <;> exact absurd (by decide) hx
    · rcases h5 with rfl | rfl | rfl <;> exact absurd (by decide) hx
    · rcases h6 with rfl | rfl | rfl <;> exact absurd (by decide) hx
    · rfl
  have hmain : processEntry s fs e = Except.ok (e.content :: s,
      { fs with
        dirs := moverDirs fs (classifiedSub e),
        rootFiles := fs.rootFiles.eraseP (fun y => decide (y.name = e.name)),
        destFiles := (classifiedSub e, e) :: fs.destFiles }) := by
    rw [processEntry_fresh s fs e e.content hf hh2 hs hm,
      move_to_folder_ok fs e (classifiedSub e) hmk hr hnc]
    rfl
  refine ⟨hmain, rfl, rfl, ?_⟩
  repeat' apply And.intro
  all_goals first
    | exact hdefault
    | decide

def eC2 : Entry := ⟨"photo.JPG", EntryKind.file, [3, 4], "2025-02-03", none, none, none⟩
def fsC2 : FS := ⟨[eC2], [], [], none, []⟩

/-- Witness for C2: a fresh `photo.JPG` is classified case-insensitively to
images under its modified date, and an unknown extension falls to others. -/
theorem C2_classification_witness :
    processEntry [] fsC2 eC2 = Except.ok (eC2.content :: [],
      { fsC2 with
        dirs := moverDirs fsC2 (classifiedSub eC2),
        rootFiles := fsC2.rootFiles.eraseP (fun y => decide (y.name = eC2.name)),
        destFiles := (classifiedSub eC2, eC2) :: fsC2.destFiles })
    ∧ classifiedSub eC2 = [classify (lowerExt eC2), eC2.mtime]
    ∧ lowerExt eC2 = lowerStr (Option.getD (rustExtension eC2.name) (""))
    ∧ classify ("jpg") = "images" ∧ classify ("jpeg") = "images"
    ∧ classify ("png") = "images" ∧ classify ("bmp") = "images"
    ∧ classify ("tiff") = "images" ∧ classify ("gif") = "gifs"
    ∧ classify ("mp4") = "videos" ∧ classify ("mov") = "videos"
    ∧ classify ("avi") = "videos" ∧ classify ("mkv") = "videos"
    ∧ classify ("mp3") = "audio" ∧ classify ("wav") = "audio"
    ∧ classify ("flac") = "audio" ∧ classify ("pdf") = "documents"
    ∧ classify ("docx") = "documents" ∧ classify ("txt") = "documents"
    ∧ classify ("zip") = "archives" ∧ classify ("rar") = "archives"
    ∧ classify ("7z") = "archives" ∧ classify ("") = "others"
    ∧ classify ("unknownext") = "others" :=
  C2_classification [] fsC2 eC2 ("unknownext") rfl rfl rfl
    rfl (by decide) rfl (by decide) (by decide)

/-- C9: the organize pass is idempotent — after a failure-free pass over a
target directory with an initially empty destination tree, a second pass is
the identity: it performs no file moves, changes nothing, and raises no
error, because no direct-child `is_file` entry remains in the target root. -/
theorem C9_idempotent (fs fs1 : FS)
    (hErr : ∀ e ∈ fs.rootFiles, e.hashErr = none ∧ e.metaErr = none ∧ e.renameErr = none)
    (hNd : (fs.rootFiles.map Entry.name).Nodup)
    (hDest : fs.destFiles = []) (hDirs : fs.dirs = [])
    (hmk : fs.mkdirFail = []) (hRd : fs.readDirErr = none)
    (hpass : organize_files fs = Except.ok fs1) :
    organize_files fs1 = Except.ok fs1 := by
  obtain ⟨ds, hchar⟩ := organize_files_clean fs hErr hNd hDest hDirs hmk hRd
  rw [hpass] at hchar
  have hfs1 : fs1 =
      { rootFiles := fs.rootFiles.filter (fun e => !(isFile e)),
        dirs := ds,
        destFiles := (passDests fs.rootFiles []).reverse,
        readDirErr := none,
        mkdirFail := [] } := by
    injection hchar
  apply organize_files_noFiles
  · rw [hfs1]
  · rw [hfs1]
    intro e he
    have h2 := (List.mem_filter.1 he).2
    simp only [Bool.not_eq_true'] at h2
    exact h2

def eC9 : Entry := ⟨"a.txt", EntryKind.file, [1], "2025-01-01", none, none, none⟩
def fsC9 : FS := ⟨[eC9], [], [], none, []⟩
def fsC9after : FS :=
  ⟨[], [["documents"], ["documents", "2025-01-01"]], [(["documents", "2025-01-01"], eC9)], none, []⟩

/-- Witness for C9: organizing a one-file directory and then organizing the
result again changes nothing. -/
theorem C9_idempotent_witness : organize_files fsC9after = Except.ok fsC9after :=
  C9_idempotent fsC9 fsC9after (by decide) (by decide) rfl rfl
    rfl rfl (by decide)

lemma reverse_take1_map (L : List Entry) (f : Entry → (List String × Entry)) :
    ((L.take 1).map f).reverse = (L.take 1).map f := by
  cases L <;> simp

/-- C1 (amended): a file whose digest is already in the pass-scoped seen
set is routed to the flat duplicates folder (no date component) via the
Mover and the entry is finished — the extension classifier plays no part in
its destination; a file with an unseen digest has the digest inserted into
the seen set before it is classified and moved.  Consequently — provided no
root file's name coincides with a file already present at its computed
destination, in particular when the destination tree starts empty — among
all processed files with identical content, exactly the first visited one
is placed outside duplicates and every other lands inside duplicates,
whatever their names or extensions. -/
theorem C1_duplicate_routing (fs : FS) (c : List Nat)
    (s1 : List Digest) (g1 : FS) (e1 : Entry) (h1 : Digest)
    (s2 : List Digest) (g2 : FS) (e2 : Entry) (h2 : Digest)
    (hErr : ∀ e ∈ fs.rootFiles, e.hashErr = none ∧ e.metaErr = none ∧ e.renameErr = none)
    (hNd : (fs.rootFiles.map Entry.name).Nodup)
    (hDest : fs.destFiles = []) (hDirs : fs.dirs = [])
    (hmk : fs.mkdirFail = []) (hRd : fs.readDirErr = none)
    (hf1 : isFile e1 = true) (hh1 : hash_file e1 = Except.ok h1) (hs1 : h1 ∈ s1)
    (hf2 : isFile e2 = true) (hh2 : hash_file e2 = Except.ok h2) (hs2 : h2 ∉ s2)
    (hm2 : e2.metaErr = none) :
    processEntry s1 g1 e1 =
      Except.map (fun g => (s1, g)) (move_to_folder g1 e1 (["duplicates"]))
    ∧ processEntry s2 g2 e2 =
        Except.map (fun g => (h2 :: s2, g)) (move_to_folder g2 e2 (classifiedSub e2))
    ∧ ∃ fs2 : FS, organize_files fs = Except.ok fs2
        ∧ fs2.destFiles.filter (isNonDupDest c) =
            ((fs.rootFiles.filter (isCFile c)).take 1).map (fun e => (classifiedSub e, e))
        ∧ (fs2.destFiles.filter (isDupDest c)).map Prod.snd =
            ((fs.rootFiles.filter (isCFile c)).drop 1).reverse
        ∧ fs2.rootFiles.filter (isCFile c) = [] := by
  refine ⟨processEntry_dup s1 g1 e1 h1 hf1 hh1 hs1,
    processEntry_fresh s2 g2 e2 h2 hf2 hh2 hs2 hm2, ?_⟩
  obtain ⟨ds, hchar⟩ := organize_files_clean fs hErr hNd hDest hDirs hmk hRd
  refine ⟨_, hchar, ?_, ?_, ?_⟩
  · show ((passDests fs.rootFiles []).reverse).filter (isNonDupDest c) = _
    rw [List.filter_reverse, (passDests_fresh fs.rootFiles [] c (by simp)).1]
    exact reverse_take1_map _ _
  · show (((passDests fs.rootFiles []).reverse).filter (isDupDest c)).map Prod.snd = _
    rw [List.filter_reverse, List.map_reverse, (passDests_fresh fs.rootFiles [] c (by simp)).2]
  · show (fs.rootFiles.filter (fun e => !(isFile e))).filter (isCFile c) = []
    rw [List.filter_filter]
    refine List.filter_eq_nil_iff.2 ?_
    intro a _
    by_cases h : isFile a = true <;> simp [isCFile, h]

def eC1a : Entry := ⟨"a.txt", EntryKind.file, [7], "2025-01-01", none, none, none⟩
def eC1b : Entry := ⟨"b.jpg", EntryKind.file, [7], "2025-01-02", none, none, none⟩
def eC1c : Entry := ⟨"c.txt", EntryKind.file, [8], "2025-01-03", none, none, none⟩
def fsC1 : FS := ⟨[eC1a, eC1b, eC1c], [], [], none, []⟩

/-- Witness for C1's amended statement: two identical-content files (with
different names and extensions) and one distinct file, on a fresh target. -/
theorem C1_duplicate_routing_witness :
    processEntry [[7]] fsC1 eC1b =
      Except.map (fun g => ([[7]], g)) (move_to_folder fsC1 eC1b (["duplicates"]))
    ∧ processEntry [] fsC1 eC1a =
        Except.map (fun g => ([[7]] ++ [], g)) (move_to_folder fsC1 eC1a (classifiedSub eC1a))
    ∧ ∃ fs2 : FS, organize_files fsC1 = Except.ok fs2
        ∧ fs2.destFiles.filter (isNonDupDest [7]) =
            ((fsC1.rootFiles.filter (isCFile [7])).take 1).map (fun e => (classifiedSub e, e))
        ∧ (fs2.destFiles.filter (isDupDest [7])).map Prod.snd =
            ((fsC1.rootFiles.filter (isCFile [7])).drop 1).reverse
        ∧ fs2.rootFiles.filter (isCFile [7]) = [] :=
  C1_duplicate_routing fsC1 [7] [[7]] fsC1 eC1b [7] [] fsC1 eC1a [7]
    (by decide) (by decide) rfl rfl rfl rfl
    rfl rfl (by decide) rfl rfl (by decide) rfl

def eC1xa : Entry := ⟨"a.txt", EntryKind.file, [7], "2025-01-01", none, none, none⟩
def eC1xb : Entry := ⟨"b.txt", EntryKind.file, [7], "2025-01-01", none, none, none⟩
def eC1xold : Entry := ⟨"b.txt", EntryKind.file, [9], "2024-01-01", none, none, none⟩
def fsC1x : FS := ⟨[eC1xa, eC1xb], [["duplicates"]], [(["duplicates"], eC1xold)], none, []⟩
def fsC1xAfter : FS :=
  ⟨[eC1xb], [["duplicates"], ["documents"], ["documents", "2025-01-01"]],
    [(["documents", "2025-01-01"], eC1xa), (["duplicates"], eC1xold)], none, []⟩

/-- Counterexample to C1 as stated: `a.txt` and `b.txt` carry identical
content, but a file named `b.txt` already sits in duplicates/, so the
duplicate's move is skipped — `b.txt` stays in the target root, i.e. two
identical-content files end outside duplicates and none of the pass's
duplicates lands inside. -/
theorem C1_counterexample :
    organize_files fsC1x = Except.ok fsC1xAfter
    ∧ eC1xa.content = eC1xb.content
    ∧ eC1xb ∈ fsC1xAfter.rootFiles
    ∧ fsC1xAfter.destFiles.filter (isDupDest [7]) = [] := by
  refine ⟨by decide, rfl, by decide, rfl⟩
